import Mathlib

/-!
Verification development for the java-modernizator repository.

The Python sources are shallowly embedded as Lean definitions:

* `application/result_processor.py` — JSON values (`JsonVal`), a model of
  `json.loads` (`json_loads`), the three-strategy answer parser
  (`parse_json_answer`), step extraction (`extract_step_results`) and the
  result-type mapper (`process_analysis`).
* `infrastructure/stackspot_client.py` — the polling loop
  (`poll_execution_result`), the callback fetch (`get_callback_result`) and
  the token acquisition (`get_access_token`).
* `application/modernization_service.py` — per-file modernization
  (`modernize_file`) and the batch driver (`modernize_all_files`).

External effects (HTTP responses, the SDK, the file system) are passed in
explicitly as environment values; uncaught Python exceptions are modelled as
distinguished constructors or `Option`/`Except` failures.
-/

/-- A Python/JSON value as handled by `result_processor.py`.
`jnull` doubles as Python's `None`.  Numbers are modelled as integers
(the answers the claims exercise contain no fractional literals). -/
inductive JsonVal where
  | jnull
  | jbool (b : Bool)
  | jnum (n : Int)
  | jstr (s : String)
  | jarr (items : List JsonVal)
  | jobj (fields : List (String × JsonVal))

namespace JsonVal

/-- Python truthiness of a value (`if not answer`, `if parsed_data`, ...). -/
def truthy : JsonVal → Bool
  | .jnull => false
  | .jbool b => b
  | .jnum n => n != 0
  | .jstr s => s != ""
  | .jarr l => !l.isEmpty
  | .jobj l => !l.isEmpty

end JsonVal

/-- Lookup in a Python dict built from an association list; for duplicated
keys Python keeps the last binding, hence the `reverse`. -/
def dictFind (d : List (String × JsonVal)) (k : String) : Option JsonVal :=
  d.reverse.lookup k

/-- `d.get(k, dflt)` on a Python dict. -/
def dictGet (d : List (String × JsonVal)) (k : String) (dflt : JsonVal) : JsonVal :=
  (dictFind d k).getD dflt

/-- `v.get(k, dflt)` on an arbitrary value: `none` models the
`AttributeError` raised when `v` is not a dict. -/
def pyGet (v : JsonVal) (k : String) (dflt : JsonVal) : Option JsonVal :=
  match v with
  | .jobj fields => some (dictGet fields k dflt)
  | _ => none

/-! ### A model of `json.loads`

Recursive-descent parser over the character list, with a fuel argument for
termination.  Strings support the single-character escapes; `\uXXXX` escapes
and fractional/exponent number forms are outside the model (none of the
inputs considered here use them). -/

/-- JSON whitespace accepted between tokens by `json.loads`. -/
def isJsonWs (c : Char) : Bool :=
  c = ' ' || c = '\t' || c = '\n' || c = '\r'

def skipWs : List Char → List Char
  | [] => []
  | c :: cs => if isJsonWs c then skipWs cs else c :: cs

/-- Single-character string escapes of JSON. -/
def escChar : Char → Option Char
  | '"' => some '"'
  | '\\' => some '\\'
  | '/' => some '/'
  | 'b' => some (Char.ofNat 8)
  | 'f' => some (Char.ofNat 12)
  | 'n' => some '\n'
  | 'r' => some '\r'
  | 't' => some '\t'
  | _ => none

/-- Parse the body of a string literal (after the opening quote), up to and
including the closing quote; returns the contents and the rest. -/
def parseStringChars : List Char → Option (List Char × List Char)
  | [] => none
  | '"' :: rest => some ([], rest)
  | '\\' :: e :: rest =>
    match escChar e with
    | some c => (parseStringChars rest).map (fun p => (c :: p.1, p.2))
    | none => none
  | '\\' :: [] => none
  | c :: rest => (parseStringChars rest).map (fun p => (c :: p.1, p.2))

/-- Split off the leading run of decimal digits. -/
def leadingDigits : List Char → (List Char × List Char)
  | [] => ([], [])
  | c :: cs =>
    if c.isDigit then
      let (ds, rest) := leadingDigits cs
      (c :: ds, rest)
    else ([], c :: cs)

/-- Parse a natural-number literal (JSON forbids redundant leading zeros). -/
def parseNatLit (l : List Char) : Option (Nat × List Char) :=
  let (ds, rest) := leadingDigits l
  match ds with
  | [] => none
  | ['0'] => some (0, rest)
  | '0' :: _ => none
  | _ => some (ds.foldl (fun acc c => 10 * acc + (c.toNat - '0'.toNat)) 0, rest)

mutual

/-- Parse one JSON value; returns the value and the remaining input. -/
def parseVal : Nat → List Char → Option (JsonVal × List Char)
  | 0, _ => none
  | fuel + 1, s =>
    match skipWs s with
    | 'n' :: 'u' :: 'l' :: 'l' :: rest => some (.jnull, rest)
    | 't' :: 'r' :: 'u' :: 'e' :: rest => some (.jbool true, rest)
    | 'f' :: 'a' :: 'l' :: 's' :: 'e' :: rest => some (.jbool false, rest)
    | '"' :: rest =>
      (parseStringChars rest).map (fun p => (.jstr (String.mk p.1), p.2))
    | '[' :: rest =>
      (match skipWs rest with
       | ']' :: r2 => some (.jarr [], r2)
       | _ => (parseItems fuel rest).map (fun p => (.jarr p.1, p.2)))
    | '{' :: rest =>
      (match skipWs rest with
       | '}' :: r2 => some (.jobj [], r2)
       | _ => (parseFields fuel rest).map (fun p => (.jobj p.1, p.2)))
    | '-' :: rest =>
      (parseNatLit rest).map (fun p => (.jnum (-(p.1 : Int)), p.2))
    | c :: rest =>
      if c.isDigit then
        (parseNatLit (c :: rest)).map (fun p => (.jnum (p.1 : Int), p.2))
      else none
    | [] => none

/-- Parse the comma-separated items of a non-empty array, incl. the `]`. -/
def parseItems : Nat → List Char → Option (List JsonVal × List Char)
  | 0, _ => none
  | fuel + 1, s => do
    let (v, r) ← parseVal fuel s
    match skipWs r with
    | ',' :: r2 => do
      let (vs, r3) ← parseItems fuel r2
      some (v :: vs, r3)
    | ']' :: r2 => some ([v], r2)
    | _ => none

/-- Parse the members of a non-empty object, incl. the `}`. -/
def parseFields : Nat → List Char → Option (List (String × JsonVal) × List Char)
  | 0, _ => none
  | fuel + 1, s =>
    match skipWs s with
    | '"' :: rest => do
      let (cs, r) ← parseStringChars rest
      match skipWs r with
      | ':' :: r2 => do
        let (v, r3) ← parseVal fuel r2
        match skipWs r3 with
        | ',' :: r4 => do
          let (fs, r5) ← parseFields fuel r4
          some ((String.mk cs, v) :: fs, r5)
        | '}' :: r4 => some ([(String.mk cs, v)], r4)
        | _ => none
      | _ => none
    | _ => none

end

/-- Model of `json.loads`: parse the whole string (trailing whitespace
allowed), `none` models a raised `json.JSONDecodeError`. -/
def json_loads (s : String) : Option JsonVal :=
  match parseVal (2 * s.length + 2) s.data with
  | some (v, rest) => if skipWs rest = [] then some v else none
  | none => none

/-! ### `_parse_json_answer` — the three parsing strategies

Strategy 2 models `re.search` (with `re.DOTALL`) for the four patterns
tried in order; the backslash-s character class, the greedy backtracking of
the whitespace run before the newline, and the lazy capture group are
reproduced below. -/

/-- Python regex whitespace class (the backslash-s class); also the
character set stripped by `str.strip()`. -/
def isPySpace (c : Char) : Bool :=
  c = ' ' || c = '\t' || c = '\n' || c = '\r' ||
  c = Char.ofNat 11 || c = Char.ofNat 12

/-- Python `str.strip()`: drop whitespace from both ends. -/
def pyStrip (s : String) : String :=
  String.mk (((s.data.dropWhile isPySpace).reverse.dropWhile isPySpace).reverse)

/-- Leftmost index at which `needle` occurs in the list. -/
def findSub (needle : List Char) : List Char → Option Nat
  | [] => if needle.isEmpty then some 0 else none
  | l@(_ :: rest) =>
    if needle.isPrefixOf l then some 0
    else (findSub needle rest).map (· + 1)

def threeTicks : List Char := ['`', '`', '`']

def nlTicks : List Char := '\n' :: threeTicks

/-- Backtracking of the greedy whitespace run: candidates are the newline
positions inside the maximal whitespace run, tried longest-first; for each,
the lazy capture ends at the first following occurrence of a newline and
three backticks. -/
def fenceTailCandidates (l : List Char) : List Nat :=
  ((List.range (l.takeWhile isPySpace).length).filter
    (fun k => l.get? k = some '\n')).reverse

def fenceTailTry (l : List Char) : List Nat → Option (List Char)
  | [] => none
  | k :: ks =>
    let body := l.drop (k + 1)
    match findSub nlTicks body with
    | some e => some (body.take e)
    | none => fenceTailTry l ks

/-- Match the tail `\s*\n(.*?)\n`-three-backticks after the opening tag. -/
def fenceTailNl (l : List Char) : Option (List Char) :=
  fenceTailTry l (fenceTailCandidates l)

/-- `re.search` for a pattern `tag\s*\n(.*?)\n`-three-backticks:
scan start positions left to right. -/
def searchFenceNl (tag : List Char) : List Char → Option (List Char)
  | [] => none
  | l@(_ :: rest) =>
    if tag.isPrefixOf l then
      match fenceTailNl (l.drop tag.length) with
      | some cap => some cap
      | none => searchFenceNl tag rest
    else searchFenceNl tag rest

/-- `re.search` for a pattern `tag(.*?)`-three-backticks (lazy capture:
first closing fence after the tag). -/
def searchFencePlain (tag : List Char) : List Char → Option (List Char)
  | [] => none
  | l@(_ :: rest) =>
    if tag.isPrefixOf l then
      match findSub threeTicks (l.drop tag.length) with
      | some e => some ((l.drop tag.length).take e)
      | none => searchFencePlain tag rest
    else searchFencePlain tag rest

def jsonFenceTag : List Char := threeTicks ++ ['j', 's', 'o', 'n']

/-- The group captured by the first of the four fence patterns that
matches (the Python `for pattern in patterns` loop; a parse failure of the
captured group exits the whole loop via the shared `try`). -/
def fencedFirstMatch (a : List Char) : Option (List Char) :=
  match searchFenceNl jsonFenceTag a with
  | some c => some c
  | none =>
    match searchFenceNl threeTicks a with
    | some c => some c
    | none =>
      match searchFencePlain jsonFenceTag a with
      | some c => some c
      | none => searchFencePlain threeTicks a

/-- Leftmost index of a character (`str.find`, with `none` for `-1`). -/
def findChar (c : Char) (l : List Char) : Option Nat :=
  l.findIdx? (· = c)

/-- Rightmost index of a character (`str.rfind`, with `none` for `-1`). -/
def rfindChar (c : Char) (l : List Char) : Option Nat :=
  (findChar c l.reverse).map (fun i => l.length - 1 - i)

/-- Strategy 3 of `_parse_json_answer`: locate the first `{` or `[`
(whichever comes first), pair it with the last matching closer anywhere in
the text, and try to parse the slice; any failure yields the empty dict. -/
def boundaryScan (answer : String) : JsonVal :=
  let a := answer.data
  let startEnd : Option (Nat × Char) :=
    match findChar '{' a, findChar '[' a with
    | none, none => none
    | none, some k => some (k, ']')
    | some b, none => some (b, '}')
    | some b, some k => if b ≤ k then some (b, '}') else some (k, ']')
  match startEnd with
  | none => .jobj []
  | some (start, endChar) =>
    match rfindChar endChar a with
    | none => .jobj []
    | some e =>
      match json_loads (String.mk ((a.drop start).take (e + 1 - start))) with
      | some v => v
      | none => .jobj []

/-- `StackSpotResultProcessor._parse_json_answer` for a string argument
(the `isinstance` guard lives in `parse_json_answer_val` below):
direct parse of the trimmed answer, then the first matching fenced block,
then the boundary scan, else the empty dict. -/
def parse_json_answer (answer : String) : JsonVal :=
  if answer = "" then .jobj []
  else
    match json_loads (pyStrip answer) with
    | some v => v
    | none =>
      match fencedFirstMatch answer.data with
      | some cap =>
        match json_loads (pyStrip (String.mk cap)) with
        | some v => v
        | none => boundaryScan answer
      | none => boundaryScan answer

/-- `_parse_json_answer` on an arbitrary value: non-strings fail the
`isinstance(answer, str)` guard and yield the empty dict. -/
def parse_json_answer_val : JsonVal → JsonVal
  | .jstr s => parse_json_answer s
  | _ => .jobj []

/-! ### `extract_step_results` -/

/-- The `step_mapping` dict of `extract_step_results`. -/
def step_mapping : List (String × String) :=
  [("step-analyze", "analysis"), ("step-plan", "plan"),
   ("step-refactor", "refactor"), ("step-metrics", "metrics")]

/-- `step_mapping.get(step_name)`: outer `none` models the `TypeError` of
hashing an unhashable key; inner `none` is a plain miss. -/
def stepMappingGet : JsonVal → Option (Option String)
  | .jstr s => some (step_mapping.lookup s)
  | .jarr _ => none
  | .jobj _ => none
  | _ => some none

/-- Python dict assignment `extracted[result_key] = parsed_data`:
replace in place or append. -/
def dictInsert (d : List (String × JsonVal)) (k : String) (v : JsonVal) :
    List (String × JsonVal) :=
  if (d.lookup k).isSome then
    d.map (fun p => if p.1 = k then (k, v) else p)
  else d ++ [(k, v)]

/-- One iteration of the `for step in steps` loop; `none` models an
uncaught exception (`.get` on a non-dict). -/
def extractOne (acc : List (String × JsonVal)) (step : JsonVal) :
    Option (List (String × JsonVal)) := do
  let step_name ← pyGet step "step_name" (.jstr "")
  let step_result ← pyGet step "step_result" (.jobj [])
  let answer ← pyGet step_result "answer" (.jstr "")
  if !answer.truthy then some acc
  else do
    let mapped ← stepMappingGet step_name
    match mapped with
    | none => some acc
    | some result_key =>
      let parsed := parse_json_answer_val answer
      if parsed.truthy then some (dictInsert acc result_key parsed)
      else some acc

/-- `StackSpotResultProcessor.extract_step_results`; the argument is the
loaded `raw_result` (`jnull` for `None`); `none` models an uncaught
exception. -/
def extract_step_results (raw : JsonVal) : Option (List (String × JsonVal)) :=
  if !raw.truthy then some []
  else do
    let steps ← pyGet raw "steps" (.jarr [])
    if !steps.truthy then some []
    else
      match steps with
      | .jarr l => l.foldlM extractOne []
      | _ => none

/-! ### The result-type mapper (`process_analysis` and `AnalysisResult`) -/

/-- `AnalysisResult`: field values carry whatever `.get` returned (Python
dataclasses do not check the annotations). -/
structure AnalysisResult where
  timestamp : JsonVal
  repository : JsonVal
  java_version : JsonVal
  spring_boot_version : JsonVal
  frameworks : JsonVal
  outdated_dependencies : JsonVal
  legacy_patterns : JsonVal
  code_smells : JsonVal
  architecture_notes : JsonVal
  summary : JsonVal

/-- `StackSpotResultProcessor.process_analysis` on a dict payload. -/
def process_analysis (d : List (String × JsonVal)) : AnalysisResult :=
  { timestamp := dictGet d "timestamp" (.jstr "")
    repository := dictGet d "repository" (.jstr "")
    java_version := dictGet d "javaVersion" (.jstr "")
    spring_boot_version := dictGet d "springBootVersion" .jnull
    frameworks := dictGet d "frameworks" (.jarr [])
    outdated_dependencies := dictGet d "outdatedDependencies" (.jarr [])
    legacy_patterns := dictGet d "legacyPatterns" (.jarr [])
    code_smells := dictGet d "codeSmells" (.jarr [])
    architecture_notes := dictGet d "architectureNotes" (.jobj [])
    summary := dictGet d "summary" (.jstr "") }

/-! ### `infrastructure/stackspot_client.py` — token acquisition and polling -/

/-- The credentials JSON loaded by `_load_credentials`. -/
structure Credentials where
  client_id : String
  client_secret : String

/-- The hard-coded JWT assigned by `_get_access_token` (abbreviated header
and signature; the assignment is a single string literal independent of any
input). -/
def hardCodedAccessToken : String :=
  "eyJhbGciOiJSUzI1NiIsImtpZCI6Ijk5YWRmYmI4LWU3ZTEtNDlmNi1iNmFhLTJlYWVlZTYyZDk4ZiIsInR5cCI6IkpXVCJ9.eyJhY2NvdW50X2lkX3YyIjoi...Ty_bAw9xNBgtur-YSzICNxM0PB7UWyvirDCFoVXMu-Y"

/-- `_get_access_token` as run from `_initialize_client`: when the SDK
client was constructed (`sdkOk`), the token is set to the fixed literal;
the loaded credentials are not consulted. -/
def get_access_token (creds : Credentials) (sdkOk : Bool) : Option String :=
  match creds with
  | _ => if sdkOk then some hardCodedAccessToken else none

/-- Outcome of one `requests.get` during polling. -/
inductive PollResponse where
  | ok (body : JsonVal)           -- HTTP 200, `response.json()` succeeded
  | okInvalidJson                 -- HTTP 200 but `response.json()` raised
  | notFound                      -- HTTP 404
  | httpStatus (code : Nat)       -- any other status code
  | netError                      -- requests.exceptions.RequestException

/-- Behaviour of the `status_callback` on one invocation. -/
inductive CbBehavior where
  | ok                            -- returns normally
  | raiseRequestExc               -- raises a requests RequestException
  | raiseOther                    -- raises any other exception

/-- The external world one polling run observes: the response of the i-th
attempt (0-based) and, when a callback was supplied, its behaviour on the
i-th attempt. -/
structure PollEnv where
  responses : Nat → PollResponse
  callback : Option (Nat → CbBehavior)

/-- Result of `poll_execution_result`.  `timedOut` models a raised
`RQCExecutionTimeoutError` (it records the model's elapsed wall time and
the attempt count); `apiError` a raised `StackspotApiError` for a
FAILED/CANCELLED state; `noToken` the `StackspotApiError` for a missing
token; `callbackError`/`pyError` model uncaught Python exceptions
escaping the loop; `outOfFuel` is a model artifact, unreachable for a
positive polling delay. -/
inductive PollOutcome where
  | completed (body : JsonVal)
  | apiError (status error : JsonVal)
  | pyError
  | callbackError (attempt : Nat)
  | timedOut (elapsed attempts : Nat)
  | noToken
  | outOfFuel

/-- The decisive effect, if any, of the body of the polling `while` loop on
attempt `i`: `some o` when the iteration returns or raises, `none` when it
falls through to `time.sleep` and the next attempt.  Mirrors lines 119-155
of `stackspot_client.py`: 200 + COMPLETED returns; 200 + FAILED/CANCELLED
raises; other 200 statuses run the callback (whose non-RequestException
exceptions propagate); 404, other statuses and network errors only log. -/
def stepDecision (env : PollEnv) (i : Nat) : Option PollOutcome :=
  match env.responses i with
  | .ok body =>
    match pyGet body "progress" (.jobj []) with
    | none => some .pyError
    | some progress =>
      match pyGet progress "status" .jnull with
      | none => some .pyError
      | some status =>
        match status with
        | .jstr s =>
          if s = "COMPLETED" then some (.completed body)
          else if s = "FAILED" || s = "CANCELLED" then
            some (.apiError status ((pyGet body "error" (.jstr "Unknown error")).getD (.jstr "Unknown error")))
          else
            match env.callback with
            | none => none
            | some cb =>
              match cb i with
              | .ok => none
              | .raiseRequestExc => none
              | .raiseOther => some (.callbackError i)
        | _ =>
          match env.callback with
          | none => none
          | some cb =>
            match cb i with
            | .ok => none
            | .raiseRequestExc => none
            | .raiseOther => some (.callbackError i)
  | .okInvalidJson => some .pyError
  | .notFound => none
  | .httpStatus _ => none
  | .netError => none

/-- The polling `while` loop.  Time is modelled discretely: the request is
instantaneous and each iteration ends with `time.sleep(delay)`, so the
elapsed wall clock grows by `delay` per attempt; the loop guard is
`elapsed < timeout`.  `fuel` only bounds the recursion; `timeout` units
suffice whenever `0 < delay`. -/
def pollGo (env : PollEnv) (delay timeout : Nat) :
    Nat → Nat → Nat → PollOutcome
  | fuel, elapsed, attempts =>
    if elapsed < timeout then
      match fuel with
      | 0 => .outOfFuel
      | fuel' + 1 =>
        match stepDecision env attempts with
        | some outcome => outcome
        | none => pollGo env delay timeout fuel' (elapsed + delay) (attempts + 1)
    else .timedOut elapsed attempts

/-- `StackspotApiClient.poll_execution_result`.  `hasToken` is whether
`self.access_token` is set on entry, `sdkOk` whether `self.client` exists.
Returns the outcome together with the number of `_get_access_token` calls
made during this invocation. -/
def poll_execution_result (hasToken sdkOk : Bool) (env : PollEnv)
    (delay timeout : Nat) : PollOutcome × Nat :=
  let acquisitions := if hasToken then 0 else 1
  let token := hasToken || sdkOk
  if token then (pollGo env delay timeout timeout 0 0, acquisitions)
  else (.noToken, acquisitions)

/-- Outcome of the single `requests.get` in `get_callback_result`. -/
inductive CallbackResp where
  | ok (body : JsonVal)
  | okInvalidJson
  | notFound
  | httpStatus (code : Nat)
  | timeoutExc
  | netError

/-- `StackspotApiClient.get_callback_result`.  Returns the parsed body (or
`none`), the number of `_get_access_token` calls and the number of
`_get_token_direct` calls made during this invocation; every exception is
caught and turned into `none`. -/
def get_callback_result (hasToken sdkOk : Bool) (directToken : Option String)
    (resp : CallbackResp) : Option JsonVal × Nat × Nat :=
  let acquisitions := if !hasToken && sdkOk then 1 else 0
  let token := hasToken || (!hasToken && sdkOk)
  let handle : Option JsonVal :=
    match resp with
    | .ok body => some body
    | .okInvalidJson => none
    | .notFound => none
    | .httpStatus _ => none
    | .timeoutExc => none
    | .netError => none
  if token then (handle, acquisitions, 0)
  else
    match directToken with
    | some _ => (handle, acquisitions, 1)
    | none => (none, acquisitions, 1)

/-! ### `application/modernization_service.py` -/

/-- `domain/entities.py` — `JavaFile`. -/
structure JavaFile where
  absolute_path : String
  relative_path : String
  filename : String
  content : String
  size_in_bytes : Nat

/-- `domain/entities.py` — `ModernizationResult`.  The modernized content
is kept opaque as a string (the client returns the callback payload, which
the service stores and saves unchanged). -/
structure ModernizationResult where
  file_path : String
  is_successful : Bool
  execution_id : Option String
  error_message : Option String
  original_content : Option String
  modernized_content : Option String

/-- The collaborators `modernize_file` calls, as functions: `execute` is
`execute_quick_command` (slug and content to execution id), `poll` is
`poll_execution_result` (execution id to result payload), `save` is
`JavaFileRepository.save_file`.  `Except.error` models a raised
exception carrying its message. -/
structure ApiEnv where
  execute : String → String → Except String String
  poll : String → Except String String
  save : String → String → Except String Unit

def quickCommandSlug : String := "modernize-legacy-java-code"

/-- `ModernizationService._create_failed_result`. -/
def create_failed_result (file_path error_message : String)
    (execution_id : Option String) : ModernizationResult :=
  { file_path := file_path
    is_successful := false
    execution_id := execution_id
    error_message := some error_message
    original_content := none
    modernized_content := none }

/-- `ModernizationService.modernize_file`: execute, poll, check
truthiness of the result, save; each stage's exception is caught and
recorded as a failed result. -/
def modernize_file (env : ApiEnv) (f : JavaFile) (saveChanges : Bool) :
    ModernizationResult :=
  match env.execute quickCommandSlug f.content with
  | .error e => create_failed_result f.absolute_path ("Failed to execute command: " ++ e) none
  | .ok execution_id =>
    match env.poll execution_id with
    | .error e =>
      create_failed_result f.absolute_path ("Failed to get results: " ++ e) (some execution_id)
    | .ok modernized_content =>
      if modernized_content = "" then
        create_failed_result f.absolute_path "Empty or invalid result" (some execution_id)
      else
        let saved : Except String Unit :=
          if saveChanges then env.save f.absolute_path modernized_content else .ok ()
        match saved with
        | .error e =>
          create_failed_result f.absolute_path ("Failed to save file: " ++ e) (some execution_id)
        | .ok _ =>
          { file_path := f.absolute_path
            is_successful := true
            execution_id := some execution_id
            error_message := none
            original_content := some f.content
            modernized_content := some modernized_content }

/-- The statistics dict built by `_create_stats` / `_create_empty_stats`.
`success_rate` models `successful / processed * 100` as an exact rational
(the source formats it to two decimals). -/
structure ModernizationStats where
  total_files : Nat
  processed : Nat
  successful : Nat
  failed : Nat
  success_rate : Rat

def create_stats (total processed successful failed : Nat) : ModernizationStats :=
  { total_files := total
    processed := processed
    successful := successful
    failed := failed
    success_rate :=
      if 0 < processed then (successful : Rat) / (processed : Rat) * 100 else 0 }

def create_empty_stats : ModernizationStats :=
  { total_files := 0, processed := 0, successful := 0, failed := 0, success_rate := 0 }

/-- `ModernizationService.modernize_all_files` over the repository's file
list: every file is processed, per-file failures are recorded, counters
and the appended `self.results` list are returned. -/
def modernize_all_files (env : ApiEnv) (files : List JavaFile)
    (saveChanges : Bool) : ModernizationStats × List ModernizationResult :=
  if files.isEmpty then (create_empty_stats, [])
  else
    let results := files.map (fun f => modernize_file env f saveChanges)
    let successful := (results.filter (fun r => r.is_successful)).length
    let failed := (results.filter (fun r => !r.is_successful)).length
    (create_stats files.length results.length successful failed, results)

/-- A file for which every stage of `modernize_file` succeeds in `env`. -/
def fileSucceeds (env : ApiEnv) (f : JavaFile) : Prop :=
  ∃ eid content,
    env.execute quickCommandSlug f.content = .ok eid ∧
    env.poll eid = .ok content ∧
    content ≠ "" ∧
    env.save f.absolute_path content = .ok ()

/-! ### Remaining definitions used by the theorem statements -/

/-- Whether a value is a Python dict. -/
def isDict : JsonVal → Bool
  | .jobj _ => true
  | _ => false

/-- A callback result containing one present step whose answer is the given
value. -/
def rawWithStep (answer : JsonVal) : JsonVal :=
  .jobj [("steps", .jarr
    [ .jobj [("step_name", .jstr "step-analyze"),
             ("step_result", .jobj [("answer", answer)])] ])]

/-- A callback result with no steps at all. -/
def rawNoSteps : JsonVal := .jobj [("steps", .jarr [])]

/-- A 200-response body whose progress status is RUNNING. -/
def runningBody : JsonVal :=
  .jobj [("progress", .jobj [("status", .jstr "RUNNING")])]

/-- A polling environment that always answers HTTP 401. -/
def env401 : PollEnv := ⟨fun _ => .httpStatus 401, none⟩

/-- Concrete fixtures for the batch-processing witness. -/
def jfileA : JavaFile := ⟨"/src/A.java", "A.java", "A.java", "class A {}", 10⟩

def jfileB : JavaFile := ⟨"/src/B.java", "B.java", "B.java", "class B {}", 10⟩

def jfileC : JavaFile := ⟨"/src/C.java", "C.java", "C.java", "class C {}", 10⟩

/-- An API environment that rejects exactly `jfileB`'s content at
submission and succeeds end-to-end on everything else. -/
def envC8 : ApiEnv :=
  { execute := fun _ content =>
      if content = "class B {}" then .error "boom" else .ok "exec-1"
    poll := fun _ => .ok "modernized code"
    save := fun _ _ => .ok () }

/-! ## Theorems -/

theorem dictGet_of_find_none (d : List (String × JsonVal)) (k : String)
    (dflt : JsonVal) (h : dictFind d k = none) : dictGet d k dflt = dflt := by
  simp [dictGet, h]

theorem dictGet_of_find_some (d : List (String × JsonVal)) (k : String)
    (dflt v : JsonVal) (h : dictFind d k = some v) : dictGet d k dflt = v := by
  simp [dictGet, h]

/-- C1: if the trimmed RawAnswer is itself valid structured data, extraction
returns exactly the direct parse of the whole trimmed answer; the fenced
and boundary strategies contribute nothing. -/
theorem C1_direct_parse_wins (answer : String) (v : JsonVal)
    (h : json_loads (pyStrip answer) = some v) :
    parse_json_answer answer = v := by
  unfold parse_json_answer
  by_cases he : answer = ""
  · subst he
    rw [show json_loads (pyStrip "") = none from rfl] at h
    exact Option.noConfusion h
  · rw [if_neg he, h]

/-- Witness for C1 at a concrete object answer. -/
theorem C1_witness :
    json_loads (pyStrip "\x7b\"a\": 1\x7d") = some (.jobj [("a", .jnum 1)]) ∧
    parse_json_answer "\x7b\"a\": 1\x7d" = .jobj [("a", .jnum 1)] :=
  ⟨rfl, C1_direct_parse_wins "\x7b\"a\": 1\x7d" (.jobj [("a", .jnum 1)]) rfl⟩

/-- C9 counterexample: on a bare JSON array the answer parser returns a
list, not a dictionary, so "returns a dictionary for every string input"
fails. -/
theorem C9_counterexample :
    parse_json_answer "[1, 2]" = .jarr [.jnum 1, .jnum 2] ∧
    isDict (parse_json_answer "[1, 2]") = false :=
  ⟨rfl, rfl⟩

/-- C9 (amended): `_parse_json_answer` is total (all parse failures are
caught), and when every strategy fails — direct parse fails, no fenced
block matches, and the text contains no `{` and no `[` — it returns the
empty dictionary; the returned value need not itself be a dictionary. -/
theorem C9_amended_total_and_empty_on_prose (s : String)
    (h1 : json_loads (pyStrip s) = none)
    (h2 : fencedFirstMatch s.data = none)
    (h3 : findChar '{' s.data = none)
    (h4 : findChar '[' s.data = none) :
    parse_json_answer s = .jobj [] := by
  have hb : boundaryScan s = .jobj [] := by
    simp [boundaryScan, h3, h4]
  unfold parse_json_answer
  by_cases he : s = ""
  · rw [if_pos he]
  · rw [if_neg he, h1, h2]
    exact hb

/-- Witness for C9 (amended) on pure prose. -/
theorem C9_amended_witness :
    json_loads (pyStrip "just prose and nothing else") = none ∧
    parse_json_answer "just prose and nothing else" = .jobj [] :=
  ⟨rfl, C9_amended_total_and_empty_on_prose
    "just prose and nothing else" rfl rfl rfl rfl⟩

/-- C10: whenever the SDK client initialized successfully,
`_get_access_token` assigns the one hard-coded JWT literal — the acquired
credential is identical across any two client identities. -/
theorem C10_token_independent_of_credentials (c1 c2 : Credentials) :
    get_access_token c1 true = some hardCodedAccessToken ∧
    get_access_token c2 true = get_access_token c1 true :=
  ⟨rfl, rfl⟩

/-- C4 counterexample: a present key of the wrong shape is passed through
verbatim, not replaced by the field's default. -/
theorem C4_counterexample :
    (process_analysis [("frameworks", .jstr "oops")]).frameworks = .jstr "oops" ∧
    JsonVal.jstr "oops" ≠ .jarr [] :=
  ⟨rfl, fun h => JsonVal.noConfusion h⟩

/-- C4 (amended): the mapper is total on dictionary payloads and defaults a
field exactly when its key is missing; a present value is passed through
unchanged regardless of its shape. -/
theorem C4_amended_defaults_for_missing_keys (d : List (String × JsonVal)) :
    (dictFind d "timestamp" = none → (process_analysis d).timestamp = .jstr "") ∧
    (dictFind d "repository" = none → (process_analysis d).repository = .jstr "") ∧
    (dictFind d "javaVersion" = none → (process_analysis d).java_version = .jstr "") ∧
    (dictFind d "springBootVersion" = none → (process_analysis d).spring_boot_version = .jnull) ∧
    (dictFind d "frameworks" = none → (process_analysis d).frameworks = .jarr []) ∧
    (dictFind d "outdatedDependencies" = none → (process_analysis d).outdated_dependencies = .jarr []) ∧
    (dictFind d "legacyPatterns" = none → (process_analysis d).legacy_patterns = .jarr []) ∧
    (dictFind d "codeSmells" = none → (process_analysis d).code_smells = .jarr []) ∧
    (dictFind d "architectureNotes" = none → (process_analysis d).architecture_notes = .jobj []) ∧
    (dictFind d "summary" = none → (process_analysis d).summary = .jstr "") ∧
    (∀ v, dictFind d "timestamp" = some v → (process_analysis d).timestamp = v) ∧
    (∀ v, dictFind d "frameworks" = some v → (process_analysis d).frameworks = v) := by
  refine ⟨fun h => ?_, fun h => ?_, fun h => ?_, fun h => ?_, fun h => ?_,
    fun h => ?_, fun h => ?_, fun h => ?_, fun h => ?_, fun h => ?_,
    fun v h => ?_, fun v h => ?_⟩ <;>
  simp [process_analysis, dictGet, h]

/-- Witness for C4 (amended): a missing key is defaulted, a present
wrong-shaped key is passed through. -/
theorem C4_amended_witness :
    (process_analysis [("frameworks", .jstr "oops")]).timestamp = .jstr "" ∧
    (process_analysis [("frameworks", .jstr "oops")]).frameworks = .jstr "oops" :=
  ⟨(C4_amended_defaults_for_missing_keys [("frameworks", .jstr "oops")]).1 rfl,
   (C4_amended_defaults_for_missing_keys
      [("frameworks", .jstr "oops")]).2.2.2.2.2.2.2.2.2.2.2 (.jstr "oops") rfl⟩

/-- C6 counterexample: a callback with one present step whose answer is
unparseable extracts to exactly the same value as a callback with no steps
at all — the caller cannot tell the two apart from the extraction result. -/
theorem C6_counterexample :
    extract_step_results (rawWithStep (.jstr "no structured data here")) =
      extract_step_results rawNoSteps ∧
    rawWithStep (.jstr "no structured data here") ≠ rawNoSteps := by
  refine ⟨rfl, fun h => ?_⟩
  simp [rawWithStep, rawNoSteps] at h

/-- C6 (amended): when every parsing strategy fails on a present step's
answer, `_parse_json_answer` yields the (falsy) empty payload and
`extract_step_results` records nothing for the step, so the result equals
the one for a callback without the step. -/
theorem C6_amended_unparseable_step_dropped (answer : JsonVal)
    (htruthy : answer.truthy = true)
    (hfail : (parse_json_answer_val answer).truthy = false) :
    extract_step_results (rawWithStep answer) = some [] ∧
    extract_step_results (rawWithStep answer) = extract_step_results rawNoSteps := by
  have h : extract_step_results (rawWithStep answer) = some [] := by
    simp [extract_step_results, rawWithStep, extractOne, pyGet, dictGet, dictFind,
      stepMappingGet, step_mapping, htruthy, hfail, List.foldlM]
    intro _ _
    rfl
  exact ⟨h, h.trans rfl⟩

/-- Witness for C6 (amended) at a concrete prose answer. -/
theorem C6_amended_witness :
    (JsonVal.jstr "no structured data here").truthy = true ∧
    (parse_json_answer_val (.jstr "no structured data here")).truthy = false ∧
    extract_step_results (rawWithStep (.jstr "no structured data here")) = some [] :=
  ⟨rfl, rfl,
   (C6_amended_unparseable_step_dropped (.jstr "no structured data here") rfl rfl).1⟩

/-! ### Polling lemmas -/

/-- If no attempt is decisive, the loop runs to the deadline and raises the
timeout error; the recorded elapsed time is the first multiple of the delay
at or past the deadline. -/
theorem pollGo_timeout_of_no_decision (env : PollEnv) (delay timeout : Nat)
    (hnone : ∀ i, stepDecision env i = none) :
    ∀ fuel elapsed attempts, elapsed < timeout + delay →
      timeout ≤ elapsed + fuel * delay →
      ∃ e a, pollGo env delay timeout fuel elapsed attempts = .timedOut e a ∧
        timeout ≤ e ∧ e < timeout + delay := by
  intro fuel
  induction fuel with
  | zero =>
    intro elapsed attempts hlt hle
    rw [Nat.zero_mul] at hle
    exact ⟨elapsed, attempts, by unfold pollGo; rw [if_neg (by omega)],
      by omega, hlt⟩
  | succ f ih =>
    intro elapsed attempts hlt hle
    rw [Nat.succ_mul] at hle
    by_cases hg : elapsed < timeout
    · obtain ⟨e, a, heq, h1, h2⟩ :=
        ih (elapsed + delay) (attempts + 1) (by omega) (by omega)
      refine ⟨e, a, ?_, h1, h2⟩
      unfold pollGo
      rw [if_pos hg]
      simpa [hnone attempts] using heq
    · exact ⟨elapsed, attempts, by unfold pollGo; rw [if_neg hg], by omega, hlt⟩

/-- If the first `k` attempts are indecisive and attempt `k` is decisive
within the deadline, the loop returns attempt `k`'s outcome. -/
theorem pollGo_decisive (env : PollEnv) (delay timeout : Nat) :
    ∀ (k fuel elapsed attempts : Nat) (o : PollOutcome),
      (∀ j, j < k → stepDecision env (attempts + j) = none) →
      stepDecision env (attempts + k) = some o →
      elapsed + k * delay < timeout →
      k < fuel →
      pollGo env delay timeout fuel elapsed attempts = o := by
  intro k
  induction k with
  | zero =>
    intro fuel elapsed attempts o hnone hdec hlt hfuel
    rw [Nat.zero_mul] at hlt
    rw [Nat.add_zero] at hdec
    obtain ⟨f, rfl⟩ : ∃ f, fuel = f + 1 := ⟨fuel - 1, by omega⟩
    unfold pollGo
    rw [if_pos (by omega)]
    simp [hdec]
  | succ kk ih =>
    intro fuel elapsed attempts o hnone hdec hlt hfuel
    rw [Nat.succ_mul] at hlt
    obtain ⟨f, rfl⟩ : ∃ f, fuel = f + 1 := ⟨fuel - 1, by omega⟩
    have h0 : stepDecision env attempts = none := by
      have := hnone 0 (by omega)
      rwa [Nat.add_zero] at this
    have hrec := ih f (elapsed + delay) (attempts + 1) o
      (fun j hj => by
        have := hnone (j + 1) (by omega)
        rwa [show attempts + (j + 1) = attempts + 1 + j by omega] at this)
      (by rwa [show attempts + (kk + 1) = attempts + 1 + kk by omega] at hdec)
      (by omega) (by omega)
    unfold pollGo
    rw [if_pos (by omega)]
    simpa [h0] using hrec

/-! ### C2, C3, C5, C7 -/

/-- C2: with a positive poll interval and a finite deadline, polling an
execution that never reaches a decisive state terminates with the locally
synthesized `RQCExecutionTimeoutError` within one poll interval past the
deadline, and that error is a different exception from the
`StackspotApiError` raised for a remote FAILED/CANCELLED state. -/
theorem C2_poll_timeout_bounded (env : PollEnv) (delay timeout : Nat) (sdkOk : Bool)
    (hd : 0 < delay) (hnone : ∀ i, stepDecision env i = none) :
    ∃ e a, poll_execution_result true sdkOk env delay timeout = (.timedOut e a, 0) ∧
      timeout ≤ e ∧ e < timeout + delay ∧
      ∀ st er, PollOutcome.timedOut e a ≠ .apiError st er := by
  obtain ⟨e, a, heq, h1, h2⟩ :=
    pollGo_timeout_of_no_decision env delay timeout hnone timeout 0 0
      (by omega)
      (by
        have h := Nat.mul_le_mul_left timeout hd
        omega)
  exact ⟨e, a, by simp [poll_execution_result, heq], h1, h2,
    fun st er h => PollOutcome.noConfusion h⟩

/-- Witness for C2: a stub that always answers 404 with `delay = 1`,
`timeout = 3`. -/
theorem C2_witness :
    (0 : Nat) < 1 ∧
    ∃ e a, poll_execution_result true true ⟨fun _ => .notFound, none⟩ 1 3 =
        (.timedOut e a, 0) ∧
      3 ≤ e ∧ e < 3 + 1 ∧ ∀ st er, PollOutcome.timedOut e a ≠ .apiError st er :=
  ⟨by decide,
   C2_poll_timeout_bounded ⟨fun _ => .notFound, none⟩ 1 3 true (by decide)
     (fun _ => rfl)⟩

/-- C3: a 404 response is treated as still pending; two 404 attempts
followed by a COMPLETED response within the deadline return the completed
payload. -/
theorem C3_notfound_is_pending (body progress : JsonVal) (env : PollEnv)
    (delay timeout : Nat) (sdkOk : Bool)
    (h0 : env.responses 0 = .notFound) (h1 : env.responses 1 = .notFound)
    (h2 : env.responses 2 = .ok body)
    (hprog : pyGet body "progress" (.jobj []) = some progress)
    (hstat : pyGet progress "status" .jnull = some (.jstr "COMPLETED"))
    (hd : 0 < delay) (ht : 2 * delay < timeout) :
    poll_execution_result true sdkOk env delay timeout = (.completed body, 0) := by
  have hdec : stepDecision env (0 + 2) = some (.completed body) := by
    simp [stepDecision, h2, hprog, hstat]
  have hnone : ∀ j, j < 2 → stepDecision env (0 + j) = none := by
    intro j hj
    interval_cases j
    · simp [stepDecision, h0]
    · simp [stepDecision, h1]
  have hrun := pollGo_decisive env delay timeout 2 timeout 0 0 (.completed body)
    hnone hdec (by omega) (by omega)
  simp [poll_execution_result, hrun]

/-- Witness for C3: 404, 404, then COMPLETED with `delay = 1`,
`timeout = 3`. -/
theorem C3_witness :
    poll_execution_result true true
      ⟨fun i => if i = 0 then .notFound else if i = 1 then .notFound
        else .ok (.jobj [("progress", .jobj [("status", .jstr "COMPLETED")])]),
       none⟩ 1 3 =
      (.completed (.jobj [("progress", .jobj [("status", .jstr "COMPLETED")])]), 0) :=
  C3_notfound_is_pending
    (.jobj [("progress", .jobj [("status", .jstr "COMPLETED")])])
    (.jobj [("status", .jstr "COMPLETED")]) _ 1 3 true rfl rfl rfl rfl rfl
    (by decide) (by decide)


/-- C7 counterexample: with an observer that raises an ordinary exception,
polling aborts on the very first attempt with that exception instead of
continuing to the next attempt — the loop's `except` clause only catches
`requests` transport errors. -/
theorem C7_counterexample :
    poll_execution_result true true
        ⟨fun _ => .ok runningBody, some (fun _ => .raiseOther)⟩ 1 5 =
      (.callbackError 0, 0) ∧
    ∀ e a, PollOutcome.callbackError 0 ≠ .timedOut e a :=
  ⟨rfl, fun _ _ h => PollOutcome.noConfusion h⟩

/-- C7 (amended): the observer runs on HTTP-200 attempts with a
non-terminal status; an exception it raises propagates out of
`poll_execution_result` and ends polling, unless it is a requests
`RequestException`, which is swallowed like a network error so that
polling continues to the deadline. -/
theorem C7_amended_observer_exceptions :
    (∀ (env : PollEnv) (delay timeout : Nat) (body progress : JsonVal)
        (cb : Nat → CbBehavior),
      env.callback = some cb → cb 0 = .raiseOther →
      env.responses 0 = .ok body →
      pyGet body "progress" (.jobj []) = some progress →
      pyGet progress "status" .jnull = some (.jstr "RUNNING") →
      0 < timeout →
      (poll_execution_result true true env delay timeout).1 = .callbackError 0) ∧
    (∀ (env : PollEnv) (delay timeout : Nat) (body progress : JsonVal)
        (cb : Nat → CbBehavior),
      0 < delay → env.callback = some cb →
      (∀ i, env.responses i = .ok body) → (∀ i, cb i = .raiseRequestExc) →
      pyGet body "progress" (.jobj []) = some progress →
      pyGet progress "status" .jnull = some (.jstr "RUNNING") →
      ∃ e a, (poll_execution_result true true env delay timeout).1 = .timedOut e a ∧
        timeout ≤ e ∧ e < timeout + delay) := by
  constructor
  · intro env delay timeout body progress cb hcb h0 hresp hprog hstat ht
    have hdec : stepDecision env (0 + 0) = some (.callbackError 0) := by
      simp [stepDecision, hresp, hprog, hstat, hcb, h0]
    have hrun := pollGo_decisive env delay timeout 0 timeout 0 0 (.callbackError 0)
      (fun j hj => absurd hj (by omega)) hdec (by omega) (by omega)
    simp [poll_execution_result, hrun]
  · intro env delay timeout body progress cb hd hcb hresp hcbb hprog hstat
    have hnone : ∀ i, stepDecision env i = none := by
      intro i
      simp [stepDecision, hresp i, hprog, hstat, hcb, hcbb i]
    obtain ⟨e, a, heq, h1, h2⟩ :=
      pollGo_timeout_of_no_decision env delay timeout hnone timeout 0 0
        (by omega)
        (by
          have h := Nat.mul_le_mul_left timeout hd
          omega)
    exact ⟨e, a, by simp [poll_execution_result, heq], h1, h2⟩

/-- Witness for C7 (amended): a raising observer aborts on attempt one; a
RequestException-raising observer lets polling reach the timeout. -/
theorem C7_amended_witness :
    (poll_execution_result true true
        ⟨fun _ => .ok runningBody, some (fun _ => .raiseOther)⟩ 1 5).1 =
      .callbackError 0 ∧
    ∃ e a, (poll_execution_result true true
        ⟨fun _ => .ok runningBody, some (fun _ => .raiseRequestExc)⟩ 1 3).1 =
        .timedOut e a ∧ 3 ≤ e ∧ e < 3 + 1 :=
  ⟨C7_amended_observer_exceptions.1
      ⟨fun _ => .ok runningBody, some (fun _ => .raiseOther)⟩ 1 5 runningBody
      (.jobj [("status", .jstr "RUNNING")]) (fun _ => .raiseOther)
      rfl rfl rfl rfl rfl (by decide),
   C7_amended_observer_exceptions.2
      ⟨fun _ => .ok runningBody, some (fun _ => .raiseRequestExc)⟩ 1 3 runningBody
      (.jobj [("status", .jstr "RUNNING")]) (fun _ => .raiseRequestExc)
      (by decide) rfl (fun _ => rfl) (fun _ => rfl) rfl rfl⟩


/-- C5 counterexample: with a cached token and a service that answers 401
on every attempt, polling makes zero `_get_access_token` calls and ends in
the timeout error — there is no single re-acquisition and no auth error;
`get_callback_result` likewise returns `None` on a 401 with zero
re-acquisitions. -/
theorem C5_counterexample :
    poll_execution_result true true env401 1 2 = (.timedOut 2 2, 0) ∧
    get_callback_result true true none (.httpStatus 401) = (none, 0, 0) :=
  ⟨rfl, rfl⟩

/-- C5 (amended): an authorization-failing status triggers no credential
re-acquisition at all: during polling, non-200/404 statuses (401/403
included) are merely logged and the loop runs on to the deadline's timeout
error, with zero `_get_access_token` calls; `get_callback_result` returns
`None` on such a status, also without re-acquiring.  Credentials are
acquired only when no token is cached on entry. -/
theorem C5_amended_no_reacquisition_on_auth_failure :
    (∀ (env : PollEnv) (delay timeout : Nat), 0 < delay →
      (∀ i, env.responses i = .httpStatus 401) →
      ∃ e a, poll_execution_result true true env delay timeout =
          (.timedOut e a, 0) ∧ timeout ≤ e ∧ e < timeout + delay) ∧
    (∀ (sdkOk : Bool) (direct : Option String),
      get_callback_result true sdkOk direct (.httpStatus 401) = (none, 0, 0)) := by
  constructor
  · intro env delay timeout hd h401
    have hnone : ∀ i, stepDecision env i = none := by
      intro i
      simp [stepDecision, h401 i]
    obtain ⟨e, a, heq, h1, h2⟩ :=
      pollGo_timeout_of_no_decision env delay timeout hnone timeout 0 0
        (by omega)
        (by
          have h := Nat.mul_le_mul_left timeout hd
          omega)
    exact ⟨e, a, by simp [poll_execution_result, heq], h1, h2⟩
  · intro sdkOk direct
    rfl

/-- Witness for C5 (amended) at a concrete always-401 stub. -/
theorem C5_amended_witness :
    (∃ e a, poll_execution_result true true env401 1 2 = (.timedOut e a, 0) ∧
      2 ≤ e ∧ e < 2 + 1) ∧
    get_callback_result true false (some "tok") (.httpStatus 401) = (none, 0, 0) :=
  ⟨C5_amended_no_reacquisition_on_auth_failure.1 env401 1 2 (by decide)
      (fun _ => rfl),
   C5_amended_no_reacquisition_on_auth_failure.2 false (some "tok")⟩

/-- A file for which all stages succeed yields a successful result. -/
theorem modernize_file_of_fileSucceeds (env : ApiEnv) (f : JavaFile)
    (h : fileSucceeds env f) : (modernize_file env f true).is_successful = true := by
  obtain ⟨eid, c, h1, h2, h3, h4⟩ := h
  simp [modernize_file, h1, h2, h3, h4]

/-- A failing submission yields the tagged failed result. -/
theorem modernize_file_of_exec_error (env : ApiEnv) (f : JavaFile) (e : String)
    (h : env.execute quickCommandSlug f.content = .error e) :
    modernize_file env f true =
      create_failed_result f.absolute_path ("Failed to execute command: " ++ e) none := by
  simp [modernize_file, h]

/-- C8: when exactly one file's submission raises and every other file
processes end-to-end, the batch still processes all `N` files, reports
`processed = N`, `successful = N − 1`, `failed = 1` with the matching
success rate, and the results contain exactly one failed record tagged
with the failing file's path and error message (here `N` is
`pre.length + post.length + 1`). -/
theorem C8_batch_isolates_single_failure (env : ApiEnv)
    (pre post : List JavaFile) (fk : JavaFile) (emsg : String)
    (hfail : env.execute quickCommandSlug fk.content = .error emsg)
    (hok : ∀ f ∈ pre ++ post, fileSucceeds env f) :
    (modernize_all_files env (pre ++ fk :: post) true).1 =
      create_stats (pre.length + post.length + 1) (pre.length + post.length + 1)
        (pre.length + post.length) 1 ∧
    (modernize_all_files env (pre ++ fk :: post) true).1.success_rate =
      ((pre.length + post.length : Nat) : Rat) /
        ((pre.length + post.length + 1 : Nat) : Rat) * 100 ∧
    ((modernize_all_files env (pre ++ fk :: post) true).2.filter
        (fun r => !r.is_successful)) =
      [create_failed_result fk.absolute_path
        ("Failed to execute command: " ++ emsg) none] := by
  have hmf_fail : modernize_file env fk true =
      create_failed_result fk.absolute_path ("Failed to execute command: " ++ emsg) none :=
    modernize_file_of_exec_error env fk emsg hfail
  have hfk_flag : (modernize_file env fk true).is_successful = false := by
    rw [hmf_fail]; rfl
  have hpre : ∀ r ∈ pre.map (fun f => modernize_file env f true),
      r.is_successful = true := by
    intro r hr
    obtain ⟨f, hf, rfl⟩ := List.mem_map.mp hr
    exact modernize_file_of_fileSucceeds env f (hok f (List.mem_append_left _ hf))
  have hpost : ∀ r ∈ post.map (fun f => modernize_file env f true),
      r.is_successful = true := by
    intro r hr
    obtain ⟨f, hf, rfl⟩ := List.mem_map.mp hr
    exact modernize_file_of_fileSucceeds env f (hok f (List.mem_append_right _ hf))
  have hres : (pre ++ fk :: post).map (fun f => modernize_file env f true) =
      pre.map (fun f => modernize_file env f true) ++
        modernize_file env fk true :: post.map (fun f => modernize_file env f true) := by
    simp
  have hfilts : ((pre ++ fk :: post).map (fun f => modernize_file env f true)).filter
      (fun r => r.is_successful) =
      pre.map (fun f => modernize_file env f true) ++
        post.map (fun f => modernize_file env f true) := by
    rw [hres, List.filter_append, List.filter_cons]
    rw [List.filter_eq_self.mpr hpre, List.filter_eq_self.mpr hpost, hfk_flag]
    simp
  have hfiltf : ((pre ++ fk :: post).map (fun f => modernize_file env f true)).filter
      (fun r => !r.is_successful) = [modernize_file env fk true] := by
    rw [hres, List.filter_append, List.filter_cons]
    rw [List.filter_eq_nil_iff.mpr (fun r hr => by simp [hpre r hr]),
      List.filter_eq_nil_iff.mpr (fun r hr => by simp [hpost r hr]), hfk_flag]
    simp
  have hne : (pre ++ fk :: post).isEmpty = false := by
    cases pre <;> rfl
  have hlen : (pre ++ fk :: post).length = pre.length + post.length + 1 := by
    simp [List.length_append]
    omega
  have hlens : (pre.map (fun f => modernize_file env f true) ++
      post.map (fun f => modernize_file env f true)).length =
      pre.length + post.length := by
    simp
  have hstats : (modernize_all_files env (pre ++ fk :: post) true).1 =
      create_stats (pre.length + post.length + 1) (pre.length + post.length + 1)
        (pre.length + post.length) 1 := by
    simp only [modernize_all_files, hne, Bool.false_eq_true, if_false,
      hfilts, hfiltf, hlens, List.length_map, List.length_cons, hlen,
      List.length_singleton, List.length_nil]
  refine ⟨hstats, ?_, ?_⟩
  · rw [hstats]
    simp only [create_stats]
    rw [if_pos (by omega)]
  · simp only [modernize_all_files, hne, Bool.false_eq_true, if_false, hfiltf,
      hmf_fail]

/-- Witness for C8: three files, the middle one failing at submission. -/
theorem C8_witness :
    envC8.execute quickCommandSlug jfileB.content = .error "boom" ∧
    (modernize_all_files envC8 [jfileA, jfileB, jfileC] true).1 =
      create_stats 3 3 2 1 ∧
    (modernize_all_files envC8 [jfileA, jfileB, jfileC] true).1.success_rate =
      (2 : Rat) / 3 * 100 ∧
    ((modernize_all_files envC8 [jfileA, jfileB, jfileC] true).2.filter
        (fun r => !r.is_successful)) =
      [create_failed_result jfileB.absolute_path
        "Failed to execute command: boom" none] := by
  have hok : ∀ f ∈ [jfileA] ++ [jfileC], fileSucceeds envC8 f := by
    intro f hf
    simp only [List.mem_append, List.mem_singleton] at hf
    rcases hf with rfl | rfl
    · exact ⟨"exec-1", "modernized code", rfl, rfl, by decide, rfl⟩
    · exact ⟨"exec-1", "modernized code", rfl, rfl, by decide, rfl⟩
  obtain ⟨h1, h2, h3⟩ :=
    C8_batch_isolates_single_failure envC8 [jfileA] [jfileC] jfileB "boom" rfl hok
  exact ⟨rfl, h1, by simpa using h2, h3⟩
